import Mathlib

/-!
Verification of the IP blocking engine of the Evil_Proxy repository
(src/Scripts/ip_blocker.py, configuration from src/Scripts/config.py).

The Python class `IPBlocker` keeps three dictionaries guarded by one lock:
`blocked_ips : ip -> ISO timestamp string`, `to_block : ip -> fractional
failure count` and `connection_attempts : ip -> list of epoch timestamps`,
plus a last-saved serialization cache and the last seen mtime of the
persisted blocklist file.  We embed dictionaries as insertion-ordered
association lists (Python dicts preserve insertion order, and a key update
keeps its position), epoch times (`time.time()`) and datetimes
(`datetime.now()`) as integers measured in seconds (only comparisons and
differences of times occur, so an integer timeline embeds every behaviour
the claims speak about), fractional failure scores as rationals, and the
persisted JSON file as an inductive of the shapes the loader
distinguishes.
-/

namespace EvilProxy

/-! Configuration constants from src/Scripts/config.py. -/

def CONNECTION_TIMEOUT : ℤ := 30

def BLOCK_RESET_INTERVAL : ℤ := 3600

def BLOCK_THRESHOLD : ℕ := 10

def CLEANUP_INTERVAL : ℤ := 60

/-- Value stored in `blocked_ips`: in Python an arbitrary string.  A block
written by this process is `datetime.now().isoformat()` and parses back;
an externally written string may fail `datetime.fromisoformat`. -/
inductive TimeStr where
  | iso (t : ℤ)
  | raw (s : String)
deriving DecidableEq

/-- Model of `datetime.fromisoformat` on a stored block-time string:
succeeds exactly on well-formed timestamps. -/
def fromisoformat : TimeStr → Option ℤ
  | .iso t => some t
  | .raw _ => none

/-- Python dict embedded as an insertion-ordered association list. -/
abbrev AssocMap (α : Type) := List (String × α)

/-- Dict lookup (`m[k]` / `m.get(k)`). -/
def lookupA {α : Type} : AssocMap α → String → Option α
  | [], _ => none
  | (k, v) :: rest, key => if k = key then some v else lookupA rest key

/-- Dict membership test (`k in m`). -/
def memA {α : Type} (m : AssocMap α) (key : String) : Bool :=
  (lookupA m key).isSome

/-- Dict update (`m[k] = v`): replaces the value in place, keeping the
key's insertion position, or appends a new binding. -/
def insertA {α : Type} : AssocMap α → String → α → AssocMap α
  | [], key, v => [(key, v)]
  | (k, w) :: rest, key, v =>
    if k = key then (k, v) :: rest else (k, w) :: insertA rest key v

/-- Dict deletion (`del m[k]` / `m.pop(k, None)`): removes the binding for
the key (a dict holds a key at most once). -/
def eraseA {α : Type} (m : AssocMap α) (key : String) : AssocMap α :=
  m.filter (fun p => decide (p.1 ≠ key))

/-- In-memory state of an `IPBlocker` instance. -/
structure IPBlockerState where
  blocked_ips : AssocMap TimeStr
  to_block : AssocMap ℚ
  connection_attempts : AssocMap (List ℤ)
  block_threshold : ℕ
  last_save_state : Option (AssocMap TimeStr)
  last_file_mtime : ℤ
deriving DecidableEq

/-- Parsed shape of the persisted blocklist file as the loader
distinguishes it: a JSON object (address to timestamp string), a legacy
JSON array of bare address strings, or content on which `json.load` or the
subsequent processing raises. -/
inductive JsonFile where
  | jdict (m : AssocMap TimeStr)
  | jlist (l : List String)
  | jbad
deriving DecidableEq

/-- The blocklist file: absent, or content together with its mtime. -/
abbrev FS := Option (JsonFile × ℤ)

/-- Lexicographic comparison of character lists, the order Python uses on
strings (and hence `json.dumps(-, sort_keys=True)` uses on keys). -/
def charsLe : List Char → List Char → Bool
  | [], _ => true
  | _ :: _, [] => false
  | a :: as, b :: bs => if a < b then true else if b < a then false else charsLe as bs

/-- String comparison by code points, as Python compares dict keys. -/
def strLe (a b : String) : Bool :=
  charsLe a.data b.data

/-- Serialization used for change detection:
`json.dumps(self.blocked_ips, sort_keys=True)` renders the entries in
sorted key order.  We model the dump by the key-sorted entry list. -/
def insertSortedKey (p : String × TimeStr) :
    List (String × TimeStr) → List (String × TimeStr)
  | [] => [p]
  | q :: rest =>
    if strLe p.1 q.1 then p :: q :: rest else q :: insertSortedKey p rest

/-- Key-sorted rendering of a dict, modelling `json.dumps(-, sort_keys=True)`. -/
def dumpsSorted (m : AssocMap TimeStr) : List (String × TimeStr) :=
  m.foldr insertSortedKey []

/-- Model of `IPBlocker._save_blocked_ips`.  The change-detection string is
the sorted dump; if it equals `_last_save_state` the save is skipped.
Otherwise the file is rewritten (atomically in Python) with
`json.dump(self.blocked_ips, f, indent=2)` — insertion order, not sorted —
and the mtime tracking and last-save cache are updated.  `mt` is the mtime
the new write receives. -/
def save_blocked_ips (s : IPBlockerState) (fs : FS) (mt : ℤ) :
    IPBlockerState × FS :=
  if s.last_save_state = some (dumpsSorted s.blocked_ips) then (s, fs)
  else
    ({ s with last_file_mtime := mt,
              last_save_state := some (dumpsSorted s.blocked_ips) },
      some (JsonFile.jdict s.blocked_ips, mt))

/-- Model of `IPBlocker._load_blocked_ips`.  If the file is absent, nothing
happens.  Otherwise the mtime is recorded first; a JSON object replaces
`blocked_ips`; a legacy array is upgraded by inserting each listed address
with `datetime.now().isoformat()` (`dnow`) as its block time; any parse or
processing failure is caught and leaves `blocked_ips` empty. -/
def load_blocked_ips (s : IPBlockerState) (fs : FS) (dnow : ℤ) :
    IPBlockerState :=
  match fs with
  | none => s
  | some (JsonFile.jdict m, mt) =>
    { s with last_file_mtime := mt, blocked_ips := m }
  | some (JsonFile.jlist l, mt) =>
    { s with last_file_mtime := mt,
             blocked_ips :=
               l.foldl (fun acc ip => insertA acc ip (TimeStr.iso dnow)) [] }
  | some (JsonFile.jbad, mt) =>
    { s with last_file_mtime := mt, blocked_ips := [] }

/-- Model of `IPBlocker._check_external_changes`.  A deleted file clears
all blocks (when any exist) and resets the mtime; a file whose mtime is
strictly newer than the last seen one is reloaded; otherwise nothing. -/
def check_external_changes (s : IPBlockerState) (fs : FS) (dnow : ℤ) :
    IPBlockerState :=
  match fs with
  | none =>
    if s.blocked_ips = [] then s
    else { s with blocked_ips := [], last_file_mtime := 0 }
  | some (_, mt) =>
    if s.last_file_mtime < mt then load_blocked_ips s fs dnow else s

/-- Result of one `track_connection_attempt` call: the address was already
blocked (returns True without persisting), merely tracked (returns False),
or transitioned to blocked now (returns True and persists). -/
inductive TrackResult where
  | alreadyBlocked
  | tracked
  | blockedNow
deriving DecidableEq

/-- Model of `IPBlocker.track_connection_attempt` for address `ip` at
epoch time `t` (`time.time()`), with `d` the current `datetime.now()` and
`mt` the mtime a save would receive.  Appends `t`, filters the list to
timestamps strictly newer than `t - CONNECTION_TIMEOUT`, and blocks when
the count reaches the threshold. -/
def track_connection_attempt (s : IPBlockerState) (fs : FS) (ip : String)
    (t d mt : ℤ) : IPBlockerState × FS × TrackResult :=
  if memA s.blocked_ips ip then (s, fs, TrackResult.alreadyBlocked)
  else
    let kept := ((lookupA s.connection_attempts ip).getD [] ++ [t]).filter
      (fun x => decide (t - CONNECTION_TIMEOUT < x))
    if s.block_threshold ≤ kept.length then
      let p := save_blocked_ips
        { s with blocked_ips := insertA s.blocked_ips ip (TimeStr.iso d),
                 to_block := eraseA s.to_block ip,
                 connection_attempts := eraseA s.connection_attempts ip }
        fs mt
      (p.1, p.2, TrackResult.blockedNow)
    else
      ({ s with connection_attempts := insertA s.connection_attempts ip kept },
        fs, TrackResult.tracked)

/-- Model of `IPBlocker.is_ip_blocked` at `datetime.now() = dnow`.  A
blocked entry whose timestamp parses is lazily expired (removed, with the
pending count and attempt list, and saved) when strictly older than the
reset interval; an unparseable timestamp unblocks without saving. -/
def is_ip_blocked (s : IPBlockerState) (fs : FS) (ip : String)
    (dnow mt : ℤ) : IPBlockerState × FS × Bool :=
  match lookupA s.blocked_ips ip with
  | none => (s, fs, false)
  | some ts =>
    match fromisoformat ts with
    | some bt =>
      if BLOCK_RESET_INTERVAL < dnow - bt then
        let p := save_blocked_ips
          { s with blocked_ips := eraseA s.blocked_ips ip,
                   to_block := eraseA s.to_block ip,
                   connection_attempts := eraseA s.connection_attempts ip }
          fs mt
        (p.1, p.2, false)
      else (s, fs, true)
    | none =>
      ({ s with blocked_ips := eraseA s.blocked_ips ip }, fs, false)

/-- Model of `IPBlocker.increment_failure_count`: a blocked address is
ignored; otherwise the score grows by 1/2 (`to_block` is a
`defaultdict(int)`, so an absent score reads 0) and the address is blocked
when the new score reaches the threshold. -/
def increment_failure_count (s : IPBlockerState) (fs : FS) (ip : String)
    (d mt : ℤ) : IPBlockerState × FS × Bool :=
  if memA s.blocked_ips ip then (s, fs, false)
  else
    let newCount := (lookupA s.to_block ip).getD 0 + 1 / 2
    if (s.block_threshold : ℚ) ≤ newCount then
      let p := save_blocked_ips
        { s with blocked_ips := insertA s.blocked_ips ip (TimeStr.iso d),
                 to_block := eraseA (insertA s.to_block ip newCount) ip,
                 connection_attempts := eraseA s.connection_attempts ip }
        fs mt
      (p.1, p.2, true)
    else
      ({ s with to_block := insertA s.to_block ip newCount }, fs, false)

/-- Model of `IPBlocker.reset_failure_count`: drops the score entry if
present. -/
def reset_failure_count (s : IPBlockerState) (ip : String) : IPBlockerState :=
  if memA s.to_block ip then { s with to_block := eraseA s.to_block ip } else s

/-- Model of `IPBlocker.block_ip`. -/
def block_ip (s : IPBlockerState) (fs : FS) (ip : String) (d mt : ℤ) :
    IPBlockerState × FS :=
  save_blocked_ips
    { s with blocked_ips := insertA s.blocked_ips ip (TimeStr.iso d),
             to_block := eraseA s.to_block ip,
             connection_attempts := eraseA s.connection_attempts ip }
    fs mt

/-- Model of `IPBlocker.unblock_ip`. -/
def unblock_ip (s : IPBlockerState) (fs : FS) (ip : String) (mt : ℤ) :
    IPBlockerState × FS × Bool :=
  if memA s.blocked_ips ip then
    let p := save_blocked_ips
      { s with blocked_ips := eraseA s.blocked_ips ip,
               to_block := eraseA s.to_block ip,
               connection_attempts := eraseA s.connection_attempts ip }
      fs mt
    (p.1, p.2, true)
  else (s, fs, false)

/-- Model of `IPBlocker._cleanup_expired_blocks` at `datetime.now() = dnow`:
collects the addresses whose block timestamp is expired or unparseable,
removes them from all three maps and saves (only when some were found). -/
def cleanup_expired_blocks (s : IPBlockerState) (fs : FS) (dnow mt : ℤ) :
    IPBlockerState × FS :=
  let to_unblock := (s.blocked_ips.filter (fun p =>
    match fromisoformat p.2 with
    | some bt => decide (BLOCK_RESET_INTERVAL < dnow - bt)
    | none => true)).map Prod.fst
  if to_unblock = [] then (s, fs)
  else
    save_blocked_ips
      { s with blocked_ips := to_unblock.foldl eraseA s.blocked_ips,
               to_block := to_unblock.foldl eraseA s.to_block,
               connection_attempts :=
                 to_unblock.foldl eraseA s.connection_attempts }
      fs mt

/-- Model of `IPBlocker._cleanup_old_connections` at `time.time() = tnow`:
prunes every attempt list to timestamps strictly newer than the cutoff and
drops addresses whose list became empty. -/
def cleanup_old_connections (s : IPBlockerState) (tnow : ℤ) : IPBlockerState :=
  let pruned := s.connection_attempts.map
    (fun p => (p.1, p.2.filter (fun x => decide (tnow - CONNECTION_TIMEOUT < x))))
  { s with connection_attempts := pruned.filter (fun p => decide (p.2 ≠ [])) }

/-- One iteration of the `_periodic_cleanup` background loop body:
external-change check, expired-block cleanup, stale-attempt cleanup. -/
def periodic_cleanup_tick (s : IPBlockerState) (fs : FS)
    (dnow tnow mt : ℤ) : IPBlockerState × FS :=
  let s1 := check_external_changes s fs dnow
  let p := cleanup_expired_blocks s1 fs dnow mt
  (cleanup_old_connections p.1 tnow, p.2)

/-- The field values `IPBlocker.__init__` sets before loading the file. -/
def initState (threshold : ℕ) : IPBlockerState :=
  { blocked_ips := []
    to_block := []
    connection_attempts := []
    block_threshold := threshold
    last_save_state := none
    last_file_mtime := 0 }

/-- Model of `IPBlocker.__init__`: fresh fields, then `_load_blocked_ips`. -/
def ipBlocker_init (fs : FS) (dnow : ℤ) : IPBlockerState :=
  load_blocked_ips (initState BLOCK_THRESHOLD) fs dnow

/-! Basic lemmas about the dictionary embedding. -/

theorem lookupA_insertA_self {α : Type} (m : AssocMap α) (k : String) (v : α) :
    lookupA (insertA m k v) k = some v := by
  induction m with
  | nil => simp [insertA, lookupA]
  | cons p rest ih =>
    by_cases h : p.1 = k
    · simp [insertA, h, lookupA]
    · simp [insertA, h, lookupA, ih]

theorem lookupA_insertA_ne {α : Type} (m : AssocMap α) (k k' : String) (v : α)
    (h : k' ≠ k) : lookupA (insertA m k v) k' = lookupA m k' := by
  have hk : k ≠ k' := Ne.symm h
  induction m with
  | nil => simp [insertA, lookupA, hk]
  | cons p rest ih =>
    by_cases hp : p.1 = k
    · subst hp
      simp [insertA, lookupA, hk]
    · simp only [insertA, if_neg hp]
      by_cases hp' : p.1 = k'
      · simp [lookupA, hp']
      · simp [lookupA, hp', ih]

theorem lookupA_eraseA_self {α : Type} (m : AssocMap α) (k : String) :
    lookupA (eraseA m k) k = none := by
  induction m with
  | nil => simp [eraseA, lookupA]
  | cons p rest ih =>
    by_cases h : p.1 = k
    · simpa [eraseA, h, lookupA] using ih
    · simpa [eraseA, h, lookupA] using ih

theorem lookupA_eraseA_ne {α : Type} (m : AssocMap α) (k k' : String)
    (h : k' ≠ k) : lookupA (eraseA m k) k' = lookupA m k' := by
  have hk : k ≠ k' := Ne.symm h
  induction m with
  | nil => simp [eraseA, lookupA]
  | cons p rest ih =>
    by_cases hp : p.1 = k
    · subst hp
      simpa [eraseA, List.filter_cons, lookupA, hk] using ih
    · by_cases hp' : p.1 = k'
      · simp [eraseA, List.filter_cons, hp, lookupA, hp', h]
      · simpa [eraseA, List.filter_cons, hp, lookupA, hp'] using ih

theorem lookupA_eraseA_none {α : Type} (m : AssocMap α) (k k' : String)
    (h : lookupA m k' = none) : lookupA (eraseA m k) k' = none := by
  by_cases hk : k' = k
  · subst hk; exact lookupA_eraseA_self m k'
  · rw [lookupA_eraseA_ne m k k' hk]; exact h

theorem mem_of_mem_eraseA {α : Type} {m : AssocMap α} {k : String}
    {p : String × α} (h : p ∈ eraseA m k) : p ∈ m :=
  (List.mem_filter.mp h).1

theorem mem_insertA {α : Type} {m : AssocMap α} {k : String} {v : α}
    {p : String × α} (h : p ∈ insertA m k v) : p.1 = k ∨ p ∈ m := by
  induction m with
  | nil =>
    simp [insertA] at h
    subst h; left; rfl
  | cons q rest ih =>
    by_cases hq : q.1 = k
    · simp only [insertA, if_pos hq] at h
      rcases List.mem_cons.mp h with h1 | h1
      · subst h1; left; exact hq
      · right; exact List.mem_cons_of_mem _ h1
    · simp only [insertA, if_neg hq] at h
      rcases List.mem_cons.mp h with h1 | h1
      · right; subst h1; exact List.mem_cons_self _ _
      · rcases ih h1 with h2 | h2
        · left; exact h2
        · right; exact List.mem_cons_of_mem _ h2

theorem memA_of_mem {α : Type} {m : AssocMap α} {p : String × α}
    (h : p ∈ m) : memA m p.1 = true := by
  induction m with
  | nil => cases h
  | cons q rest ih =>
    rcases List.mem_cons.mp h with h1 | h1
    · subst h1; simp [memA, lookupA]
    · by_cases hq : q.1 = p.1
      · simp [memA, lookupA, hq]
      · simpa [memA, lookupA, hq] using ih h1

theorem lookupA_foldl_eraseA_none {α : Type} (L : List String)
    (m : AssocMap α) (k : String) (h : lookupA m k = none) :
    lookupA (L.foldl eraseA m) k = none := by
  induction L generalizing m with
  | nil => exact h
  | cons a rest ih =>
    exact ih (eraseA m a) (lookupA_eraseA_none m a k h)

theorem mem_foldl_eraseA {α : Type} {L : List String} {m : AssocMap α}
    {p : String × α} (h : p ∈ L.foldl eraseA m) : p ∈ m := by
  induction L generalizing m with
  | nil => exact h
  | cons a rest ih =>
    exact mem_of_mem_eraseA (ih h)

/-! The save helper never touches the three dictionaries. -/

theorem save_blocked_ips_blocked (s : IPBlockerState) (fs : FS) (mt : ℤ) :
    (save_blocked_ips s fs mt).1.blocked_ips = s.blocked_ips := by
  unfold save_blocked_ips; split <;> rfl

theorem save_blocked_ips_to_block (s : IPBlockerState) (fs : FS) (mt : ℤ) :
    (save_blocked_ips s fs mt).1.to_block = s.to_block := by
  unfold save_blocked_ips; split <;> rfl

theorem save_blocked_ips_conn (s : IPBlockerState) (fs : FS) (mt : ℤ) :
    (save_blocked_ips s fs mt).1.connection_attempts = s.connection_attempts := by
  unfold save_blocked_ips; split <;> rfl

theorem save_blocked_ips_threshold (s : IPBlockerState) (fs : FS) (mt : ℤ) :
    (save_blocked_ips s fs mt).1.block_threshold = s.block_threshold := by
  unfold save_blocked_ips; split <;> rfl

/-- Sequential composition of `track_connection_attempt` calls for one
address.  Each Python call holds `self.lock` for its whole body, so any
concurrent execution of calls for the same address is equivalent to some
sequential order of them; this function runs one such order.  Each call
carries its `time.time()` and `datetime.now()` values. -/
def runTrackCalls (ip : String) (mt : ℤ) :
    IPBlockerState → FS → List (ℤ × ℤ) → IPBlockerState × FS × List TrackResult
  | s, fs, [] => (s, fs, [])
  | s, fs, c :: rest =>
    let r := track_connection_attempt s fs ip c.1 c.2 mt
    let q := runTrackCalls ip mt r.1 r.2.1 rest
    (q.1, q.2.1, r.2.2 :: q.2.2)

/-- Number of calls in a result trace that performed the blocked
transition (and hence the persist). -/
def countBlockedNow : List TrackResult → ℕ
  | [] => 0
  | TrackResult.blockedNow :: rest => countBlockedNow rest + 1
  | _ :: rest => countBlockedNow rest

theorem countBlockedNow_replicate_already (n : ℕ) :
    countBlockedNow (List.replicate n TrackResult.alreadyBlocked) = 0 := by
  induction n with
  | zero => rfl
  | succ k ih => simpa [List.replicate, countBlockedNow] using ih

theorem track_already (s : IPBlockerState) (fs : FS) (ip : String)
    (t d mt : ℤ) (hb : memA s.blocked_ips ip = true) :
    track_connection_attempt s fs ip t d mt =
      (s, fs, TrackResult.alreadyBlocked) := by
  simp [track_connection_attempt, hb]

theorem runTrack_already (ip : String) (mt : ℤ) (calls : List (ℤ × ℤ)) :
    ∀ (s : IPBlockerState) (fs : FS), memA s.blocked_ips ip = true →
    runTrackCalls ip mt s fs calls =
      (s, fs, List.replicate calls.length TrackResult.alreadyBlocked) := by
  induction calls with
  | nil => intro s fs hb; rfl
  | cons c rest ih =>
    intro s fs hb
    simp only [runTrackCalls, track_already s fs ip c.1 c.2 mt hb]
    simp [ih s fs hb, List.replicate]

/-- Core induction for the attempt-threshold claims: starting not blocked
with `acc` recorded timestamps for `ip`, if the pending calls suffice to
reach the threshold and every involved timestamp survives every pending
call's cutoff, then some pending call blocks `ip`, the blocked entry holds
that call's datetime, and exactly one call in the whole trace performed
the transition. -/
theorem runTrack_aux (ip : String) (mt : ℤ) (pending : List (ℤ × ℤ)) :
    ∀ (acc : List ℤ) (s : IPBlockerState) (fs : FS),
    memA s.blocked_ips ip = false →
    (lookupA s.connection_attempts ip).getD [] = acc →
    acc.length < s.block_threshold →
    s.block_threshold ≤ acc.length + pending.length →
    (∀ x ∈ acc, ∀ u ∈ pending.map Prod.fst, u - CONNECTION_TIMEOUT < x) →
    (∀ x ∈ pending.map Prod.fst, ∀ u ∈ pending.map Prod.fst,
      u - CONNECTION_TIMEOUT < x) →
    ∃ d ∈ pending.map Prod.snd,
      lookupA (runTrackCalls ip mt s fs pending).1.blocked_ips ip =
        some (TimeStr.iso d) ∧
      countBlockedNow (runTrackCalls ip mt s fs pending).2.2 = 1 := by
  induction pending with
  | nil =>
    intro acc s fs hnb hacc hlt hge hWa hWp
    simp only [List.length_nil, Nat.add_zero] at hge
    omega
  | cons c rest ih =>
    intro acc s fs hnb hacc hlt hge hWa hWp
    have hc1mem : c.1 ∈ List.map Prod.fst (c :: rest) :=
      List.mem_map_of_mem Prod.fst (List.mem_cons_self c rest)
    have hkeep : ((lookupA s.connection_attempts ip).getD [] ++ [c.1]).filter
        (fun x => decide (c.1 - CONNECTION_TIMEOUT < x)) = acc ++ [c.1] := by
      rw [hacc]
      apply List.filter_eq_self.mpr
      intro a ha
      simp only [decide_eq_true_eq]
      rcases List.mem_append.mp ha with h1 | h1
      · exact hWa a h1 c.1 hc1mem
      · rw [List.mem_singleton] at h1
        subst h1
        exact hWp c.1 hc1mem c.1 hc1mem
    by_cases hth : s.block_threshold ≤ (acc ++ [c.1]).length
    · -- this call crosses the threshold and blocks
      set s1 : IPBlockerState :=
        { s with blocked_ips := insertA s.blocked_ips ip (TimeStr.iso c.2),
                 to_block := eraseA s.to_block ip,
                 connection_attempts := eraseA s.connection_attempts ip }
        with hs1
      have hstep : track_connection_attempt s fs ip c.1 c.2 mt =
          ((save_blocked_ips s1 fs mt).1, (save_blocked_ips s1 fs mt).2,
            TrackResult.blockedNow) := by
        simp only [track_connection_attempt, hnb, Bool.false_eq_true,
          if_false, hkeep, if_pos hth, hs1]
      have hlook2 : lookupA (save_blocked_ips s1 fs mt).1.blocked_ips ip =
          some (TimeStr.iso c.2) := by
        rw [save_blocked_ips_blocked, hs1]
        exact lookupA_insertA_self s.blocked_ips ip (TimeStr.iso c.2)
      have hmem2 : memA (save_blocked_ips s1 fs mt).1.blocked_ips ip = true := by
        simp [memA, hlook2]
      refine ⟨c.2, List.mem_map_of_mem Prod.snd (List.mem_cons_self c rest), ?_, ?_⟩
      · simp only [runTrackCalls, hstep,
          runTrack_already ip mt rest (save_blocked_ips s1 fs mt).1
            (save_blocked_ips s1 fs mt).2 hmem2]
        exact hlook2
      · simp only [runTrackCalls, hstep,
          runTrack_already ip mt rest (save_blocked_ips s1 fs mt).1
            (save_blocked_ips s1 fs mt).2 hmem2]
        simp [countBlockedNow, countBlockedNow_replicate_already]
    · -- below threshold: the call is merely tracked
      have hth' : (acc ++ [c.1]).length < s.block_threshold := Nat.lt_of_not_le hth
      have hstep : track_connection_attempt s fs ip c.1 c.2 mt =
          ({ s with connection_attempts :=
              insertA s.connection_attempts ip (acc ++ [c.1]) }, fs,
            TrackResult.tracked) := by
        simp only [track_connection_attempt, hnb, Bool.false_eq_true,
          if_false, hkeep, if_neg hth]
      have hrec := ih (acc ++ [c.1])
        { s with connection_attempts := insertA s.connection_attempts ip (acc ++ [c.1]) }
        fs hnb
        (by simp [lookupA_insertA_self])
        (by simpa using hth')
        (by
          simp only [List.length_append, List.length_cons, List.length_nil,
            List.length_singleton] at hge ⊢
          omega)
        (by
          intro x hx u hu
          have hu' : u ∈ List.map Prod.fst (c :: rest) := by
            simp only [List.map_cons, List.mem_cons]
            right
            exact hu
          rcases List.mem_append.mp hx with h1 | h1
          · exact hWa x h1 u hu'
          · rw [List.mem_singleton] at h1
            subst h1
            exact hWp c.1 hc1mem u hu')
        (by
          intro x hx u hu
          have hx' : x ∈ List.map Prod.fst (c :: rest) := by
            simp only [List.map_cons, List.mem_cons]
            right
            exact hx
          have hu' : u ∈ List.map Prod.fst (c :: rest) := by
            simp only [List.map_cons, List.mem_cons]
            right
            exact hu
          exact hWp x hx' u hu')
      rcases hrec with ⟨d, hd, hd1, hd2⟩
      refine ⟨d, by simp only [List.map_cons, List.mem_cons]; right; exact hd, ?_, ?_⟩
      · simpa only [runTrackCalls, hstep] using hd1
      · simp only [runTrackCalls, hstep]
        simpa [countBlockedNow] using hd2

/-- Checking an address at the very datetime stored in its block entry
returns blocked (zero elapsed time never exceeds the reset interval). -/
theorem is_ip_blocked_at_block_time (s : IPBlockerState) (fs : FS)
    (ip : String) (d mt : ℤ)
    (h : lookupA s.blocked_ips ip = some (TimeStr.iso d)) :
    (is_ip_blocked s fs ip d mt).2.2 = true := by
  simp [is_ip_blocked, h, fromisoformat, BLOCK_RESET_INTERVAL]

/-- Claim C1: for an address that is not blocked and has no recorded
attempts, calling `track_connection_attempt` at least `block_threshold`
times with every involved timestamp inside one trailing window blocks the
address: the block record afterwards holds an entry for it carrying the
`datetime.now()` of one of the calls, and `is_ip_blocked` checked at that
very time returns true. -/
theorem claim_C1_threshold_attempts_block (ip : String) (mt : ℤ)
    (calls : List (ℤ × ℤ)) (s : IPBlockerState) (fs : FS)
    (hnb : memA s.blocked_ips ip = false)
    (hfresh : lookupA s.connection_attempts ip = none)
    (hpos : 0 < s.block_threshold)
    (hlen : s.block_threshold ≤ calls.length)
    (hW : ∀ x ∈ calls.map Prod.fst, ∀ u ∈ calls.map Prod.fst,
      u - CONNECTION_TIMEOUT < x) :
    ∃ d ∈ calls.map Prod.snd,
      lookupA (runTrackCalls ip mt s fs calls).1.blocked_ips ip =
        some (TimeStr.iso d) ∧
      (is_ip_blocked (runTrackCalls ip mt s fs calls).1
        (runTrackCalls ip mt s fs calls).2.1 ip d mt).2.2 = true := by
  obtain ⟨d, hd, h1, h2⟩ := runTrack_aux ip mt calls [] s fs hnb
    (by simp [hfresh]) (by simpa) (by simpa) (by simp) hW
  exact ⟨d, hd, h1, is_ip_blocked_at_block_time _ _ ip d mt h1⟩

theorem claim_C1_threshold_attempts_block_witness :
    ∃ d ∈ (List.replicate 10 ((0 : ℤ), (5 : ℤ))).map Prod.snd,
      lookupA (runTrackCalls "9.9.9.9" 7 (initState 10) none
        (List.replicate 10 ((0 : ℤ), (5 : ℤ)))).1.blocked_ips "9.9.9.9" =
        some (TimeStr.iso d) ∧
      (is_ip_blocked (runTrackCalls "9.9.9.9" 7 (initState 10) none
          (List.replicate 10 ((0 : ℤ), (5 : ℤ)))).1
        (runTrackCalls "9.9.9.9" 7 (initState 10) none
          (List.replicate 10 ((0 : ℤ), (5 : ℤ)))).2.1 "9.9.9.9" d 7).2.2 = true :=
  claim_C1_threshold_attempts_block "9.9.9.9" 7
    (List.replicate 10 ((0 : ℤ), (5 : ℤ))) (initState 10) none
    (by decide) (by decide) (by decide) (by decide) (by decide)

/-- Claim C3: the lock serializes simultaneous callers, so a batch of
exactly `block_threshold` calls for one fresh address — executed in any
order, with all timestamps inside one window — contains exactly one call
that performs the transition to blocked and the persist, never zero and
never more than one. -/
theorem claim_C3_exactly_one_transition (ip : String) (mt : ℤ)
    (calls : List (ℤ × ℤ)) (s : IPBlockerState) (fs : FS)
    (hnb : memA s.blocked_ips ip = false)
    (hfresh : lookupA s.connection_attempts ip = none)
    (hpos : 0 < s.block_threshold)
    (hlen : calls.length = s.block_threshold)
    (hW : ∀ x ∈ calls.map Prod.fst, ∀ u ∈ calls.map Prod.fst,
      u - CONNECTION_TIMEOUT < x) :
    countBlockedNow (runTrackCalls ip mt s fs calls).2.2 = 1 := by
  obtain ⟨d, hd, h1, h2⟩ := runTrack_aux ip mt calls [] s fs hnb
    (by simp [hfresh]) (by simpa) (by simp [hlen]) (by simp) hW
  exact h2

theorem claim_C3_exactly_one_transition_witness :
    countBlockedNow (runTrackCalls "8.8.8.8" 7 (initState 10) none
      (List.replicate 10 ((0 : ℤ), (5 : ℤ)))).2.2 = 1 :=
  claim_C3_exactly_one_transition "8.8.8.8" 7
    (List.replicate 10 ((0 : ℤ), (5 : ℤ))) (initState 10) none
    (by decide) (by decide) (by decide) (by decide) (by decide)

/-- A state in which 1.2.3.4 was blocked at datetime 0. -/
def sBlockedAt0 : IPBlockerState :=
  { blocked_ips := [("1.2.3.4", TimeStr.iso 0)]
    to_block := []
    connection_attempts := []
    block_threshold := 10
    last_save_state := none
    last_file_mtime := 0 }

/-- Claim C2 counterexample: the claim says a check at exactly
`T + resetInterval` returns false, but the code expires only on strictly
greater elapsed time (`datetime.now() - block_time > BLOCK_RESET_INTERVAL`),
so a check at `0 + 3600` still returns true and keeps the entry. -/
theorem claim_C2_counterexample :
    (is_ip_blocked sBlockedAt0 none "1.2.3.4" 3600 1).2.2 = true ∧
    lookupA (is_ip_blocked sBlockedAt0 none "1.2.3.4" 3600 1).1.blocked_ips
      "1.2.3.4" = some (TimeStr.iso 0) := by
  decide

/-- Claim C2 (amended): for an address blocked at time `T` with a
parseable timestamp, `is_ip_blocked` returns true for any check at or
before `T + BLOCK_RESET_INTERVAL`, and for any check strictly after it
returns false and removes the block entry — in both cases without the
cleanup loop running. -/
theorem claim_C2_lazy_expiry_boundary (s : IPBlockerState) (fs : FS)
    (ip : String) (T dnow mt : ℤ)
    (hb : lookupA s.blocked_ips ip = some (TimeStr.iso T)) :
    (dnow ≤ T + BLOCK_RESET_INTERVAL →
      (is_ip_blocked s fs ip dnow mt).2.2 = true) ∧
    (T + BLOCK_RESET_INTERVAL < dnow →
      (is_ip_blocked s fs ip dnow mt).2.2 = false ∧
      lookupA (is_ip_blocked s fs ip dnow mt).1.blocked_ips ip = none) := by
  constructor
  · intro hle
    have hc : ¬ BLOCK_RESET_INTERVAL < dnow - T := by omega
    simp [is_ip_blocked, hb, fromisoformat, hc]
  · intro hgt
    have hc : BLOCK_RESET_INTERVAL < dnow - T := by omega
    constructor
    · simp [is_ip_blocked, hb, fromisoformat, hc]
    · simp only [is_ip_blocked, hb, fromisoformat, if_pos hc,
        save_blocked_ips_blocked]
      exact lookupA_eraseA_self s.blocked_ips ip

theorem claim_C2_lazy_expiry_boundary_witness :
    ((600 : ℤ) ≤ 0 + BLOCK_RESET_INTERVAL →
      (is_ip_blocked sBlockedAt0 none "1.2.3.4" 600 1).2.2 = true) ∧
    ((0 : ℤ) + BLOCK_RESET_INTERVAL < 9999 →
      (is_ip_blocked sBlockedAt0 none "1.2.3.4" 9999 1).2.2 = false ∧
      lookupA (is_ip_blocked sBlockedAt0 none "1.2.3.4" 9999 1).1.blocked_ips
        "1.2.3.4" = none) :=
  ⟨(claim_C2_lazy_expiry_boundary sBlockedAt0 none "1.2.3.4" 0 600 1
      (by decide)).1,
   (claim_C2_lazy_expiry_boundary sBlockedAt0 none "1.2.3.4" 0 9999 1
      (by decide)).2⟩

/-- A state in which 1.2.3.4 has one recorded attempt at epoch time 0. -/
def sAttemptAt0 : IPBlockerState :=
  { blocked_ips := []
    to_block := []
    connection_attempts := [("1.2.3.4", [0])]
    block_threshold := 10
    last_save_state := none
    last_file_mtime := 0 }

/-- Claim C4 counterexample: the claim says the retained previous
timestamps are those in the inclusive interval `[now - window, now]`.  For
a stored attempt at 0 and a call at `now = 30 = 0 + window`, the inclusive
reading would keep `[0, 30]`, but the code filters with a strict
`t > now - window` and stores `[30]`. -/
theorem claim_C4_counterexample :
    (lookupA (track_connection_attempt sAttemptAt0 none "1.2.3.4" 30 30 0).1.connection_attempts
        "1.2.3.4").getD []
      ≠ [(0 : ℤ)].filter
          (fun x => decide (30 - CONNECTION_TIMEOUT ≤ x ∧ x ≤ 30)) ++ [30] := by
  decide

/-- Claim C4 (amended): when the address is not blocked and the call stays
below the threshold, the stored sequence after the call is exactly the
previous timestamps inside the half-open interval
`(now - CONNECTION_TIMEOUT, now]` followed by `now` itself (so an attempt
at `T0` is still counted at `T0 + 1` but is evicted by a check at
`T0 + CONNECTION_TIMEOUT + 1`). -/
theorem claim_C4_window_halfopen (s : IPBlockerState) (fs : FS)
    (ip : String) (t d mt : ℤ) (prev : List ℤ)
    (hnb : memA s.blocked_ips ip = false)
    (hprev : (lookupA s.connection_attempts ip).getD [] = prev)
    (hmono : ∀ x ∈ prev, x ≤ t)
    (hcount : ((prev ++ [t]).filter
        (fun x => decide (t - CONNECTION_TIMEOUT < x))).length
      < s.block_threshold) :
    lookupA (track_connection_attempt s fs ip t d mt).1.connection_attempts ip
      = some (prev.filter
          (fun x => decide (t - CONNECTION_TIMEOUT < x ∧ x ≤ t)) ++ [t]) := by
  have hpt : t - CONNECTION_TIMEOUT < t := by
    simp only [CONNECTION_TIMEOUT]
    omega
  have hsplit : (prev ++ [t]).filter (fun x => decide (t - CONNECTION_TIMEOUT < x))
      = prev.filter (fun x => decide (t - CONNECTION_TIMEOUT < x)) ++ [t] := by
    rw [List.filter_append]
    simp [List.filter, hpt]
  have hcong : prev.filter (fun x => decide (t - CONNECTION_TIMEOUT < x))
      = prev.filter (fun x => decide (t - CONNECTION_TIMEOUT < x ∧ x ≤ t)) := by
    apply List.filter_congr
    intro x hx
    rw [decide_eq_decide]
    exact ⟨fun hh => ⟨hh, hmono x hx⟩, fun hh => hh.1⟩
  have hthr : ¬ s.block_threshold ≤
      (((lookupA s.connection_attempts ip).getD [] ++ [t]).filter
        (fun x => decide (t - CONNECTION_TIMEOUT < x))).length := by
    rw [hprev]
    exact Nat.not_le.mpr hcount
  simp only [track_connection_attempt, hnb, Bool.false_eq_true, if_false,
    if_neg hthr]
  rw [lookupA_insertA_self]
  rw [hprev, hsplit, hcong]

theorem claim_C4_window_halfopen_witness :
    lookupA (track_connection_attempt sAttemptAt0 none "1.2.3.4" 10 0 0).1.connection_attempts
        "1.2.3.4"
      = some ([(0 : ℤ)].filter
          (fun x => decide (10 - CONNECTION_TIMEOUT < x ∧ x ≤ 10)) ++ [10]) :=
  claim_C4_window_halfopen sAttemptAt0 none "1.2.3.4" 10 0 0 [0]
    (by decide) (by decide) (by decide) (by decide)

/-- State-and-file pair after one `increment_failure_count` call,
discarding the returned boolean. -/
def incStep (x : IPBlockerState × FS) (ip : String) (d mt : ℤ) :
    IPBlockerState × FS :=
  ((increment_failure_count x.1 x.2 ip d mt).1,
   (increment_failure_count x.1 x.2 ip d mt).2.1)

/-- An `increment_failure_count` call on a non-blocked address whose new
score stays below the threshold just stores the score increased by 1/2. -/
theorem increment_adds_half (s : IPBlockerState) (fs : FS) (ip : String)
    (d mt : ℤ) (q : ℚ)
    (hnb : memA s.blocked_ips ip = false)
    (hq : (lookupA s.to_block ip).getD 0 = q)
    (hlt : q + 1 / 2 < (s.block_threshold : ℚ)) :
    increment_failure_count s fs ip d mt =
      ({ s with to_block := insertA s.to_block ip (q + 1 / 2) }, fs, false) := by
  have hc : ¬ ((s.block_threshold : ℚ) ≤ q + 1 / 2) := not_le.mpr hlt
  simp only [increment_failure_count, hnb, Bool.false_eq_true, if_false, hq]
  rw [if_neg hc]

/-- A `reset_failure_count` call with a pending score drops the entry. -/
theorem reset_removes_entry (s : IPBlockerState) (ip : String)
    (h : memA s.to_block ip = true) :
    reset_failure_count s ip = { s with to_block := eraseA s.to_block ip } := by
  simp [reset_failure_count, h]

/-- Claim C5: on a non-blocked address with no pending score and a
threshold of at least 4, each failure increment adds exactly 1/2: three
increments leave the stored score at 1/2, 1 and 3/2 respectively, a
success reset removes the entry entirely, and one further increment then
restarts from 0 and stores 1/2 again. -/
theorem claim_C5_failure_score_chain (s : IPBlockerState) (fs : FS)
    (ip : String) (d1 d2 d3 d4 mt : ℤ)
    (hnb : memA s.blocked_ips ip = false)
    (hns : lookupA s.to_block ip = none)
    (hth : 4 ≤ s.block_threshold) :
    lookupA (incStep (s, fs) ip d1 mt).1.to_block ip = some (1 / 2) ∧
    lookupA (incStep (incStep (s, fs) ip d1 mt) ip d2 mt).1.to_block ip
      = some 1 ∧
    lookupA (incStep (incStep (incStep (s, fs) ip d1 mt) ip d2 mt) ip d3 mt).1.to_block ip
      = some (3 / 2) ∧
    lookupA (reset_failure_count (incStep (incStep (incStep (s, fs) ip d1 mt) ip d2 mt) ip d3 mt).1 ip).to_block ip = none ∧
    lookupA (incStep (reset_failure_count (incStep (incStep (incStep (s, fs) ip d1 mt) ip d2 mt) ip d3 mt).1 ip, (incStep (incStep (incStep (s, fs) ip d1 mt) ip d2 mt) ip d3 mt).2) ip d4 mt).1.to_block ip = some (1 / 2) := by
  have hth4 : (4 : ℚ) ≤ (s.block_threshold : ℚ) := by exact_mod_cast hth
  have e1 : increment_failure_count s fs ip d1 mt =
      ({ s with to_block := insertA s.to_block ip (0 + 1 / 2) }, fs, false) :=
    increment_adds_half s fs ip d1 mt 0 hnb (by rw [hns]; rfl) (by linarith)
  have hs1 : incStep (s, fs) ip d1 mt =
      ({ s with to_block := insertA s.to_block ip (0 + 1 / 2) }, fs) := by
    dsimp only [incStep]
    rw [e1]
  have l1 : lookupA (insertA s.to_block ip (0 + 1 / 2)) ip = some (0 + 1 / 2) :=
    lookupA_insertA_self s.to_block ip (0 + 1 / 2)
  have e2 : increment_failure_count { s with to_block := insertA s.to_block ip (0 + 1 / 2) } fs ip d2 mt =
      ({ s with to_block := insertA (insertA s.to_block ip (0 + 1 / 2)) ip (0 + 1 / 2 + 1 / 2) }, fs, false) :=
    increment_adds_half _ fs ip d2 mt (0 + 1 / 2) hnb (by show (lookupA (insertA s.to_block ip (0 + 1 / 2)) ip).getD 0 = 0 + 1 / 2 ; rw [l1] ; rfl)
      (by linarith)
  have hs2 : incStep (incStep (s, fs) ip d1 mt) ip d2 mt =
      ({ s with to_block := insertA (insertA s.to_block ip (0 + 1 / 2)) ip (0 + 1 / 2 + 1 / 2) }, fs) := by
    rw [hs1]
    dsimp only [incStep]
    rw [e2]
  have l2 : lookupA (insertA (insertA s.to_block ip (0 + 1 / 2)) ip (0 + 1 / 2 + 1 / 2)) ip = some (0 + 1 / 2 + 1 / 2) :=
    lookupA_insertA_self _ ip _
  have e3 : increment_failure_count { s with to_block := insertA (insertA s.to_block ip (0 + 1 / 2)) ip (0 + 1 / 2 + 1 / 2) } fs ip d3 mt =
      ({ s with to_block := insertA (insertA (insertA s.to_block ip (0 + 1 / 2)) ip (0 + 1 / 2 + 1 / 2)) ip (0 + 1 / 2 + 1 / 2 + 1 / 2) }, fs, false) :=
    increment_adds_half _ fs ip d3 mt (0 + 1 / 2 + 1 / 2) hnb (by show (lookupA (insertA (insertA s.to_block ip (0 + 1 / 2)) ip (0 + 1 / 2 + 1 / 2)) ip).getD 0 = 0 + 1 / 2 + 1 / 2 ; rw [l2] ; rfl)
      (by linarith)
  have hs3 : incStep (incStep (incStep (s, fs) ip d1 mt) ip d2 mt) ip d3 mt =
      ({ s with to_block := insertA (insertA (insertA s.to_block ip (0 + 1 / 2)) ip (0 + 1 / 2 + 1 / 2)) ip (0 + 1 / 2 + 1 / 2 + 1 / 2) }, fs) := by
    rw [hs2]
    dsimp only [incStep]
    rw [e3]
  have l3 : lookupA (insertA (insertA (insertA s.to_block ip (0 + 1 / 2)) ip (0 + 1 / 2 + 1 / 2)) ip (0 + 1 / 2 + 1 / 2 + 1 / 2)) ip = some (0 + 1 / 2 + 1 / 2 + 1 / 2) :=
    lookupA_insertA_self _ ip _
  have hmem3 : memA (insertA (insertA (insertA s.to_block ip (0 + 1 / 2)) ip (0 + 1 / 2 + 1 / 2)) ip (0 + 1 / 2 + 1 / 2 + 1 / 2)) ip = true := by
    unfold memA
    rw [l3]
    rfl
  have hs4 : reset_failure_count (incStep (incStep (incStep (s, fs) ip d1 mt) ip d2 mt) ip d3 mt).1 ip =
      { s with to_block := eraseA (insertA (insertA (insertA s.to_block ip (0 + 1 / 2)) ip (0 + 1 / 2 + 1 / 2)) ip (0 + 1 / 2 + 1 / 2 + 1 / 2)) ip } := by
    rw [hs3]
    exact reset_removes_entry { s with to_block := insertA (insertA (insertA s.to_block ip (0 + 1 / 2)) ip (0 + 1 / 2 + 1 / 2)) ip (0 + 1 / 2 + 1 / 2 + 1 / 2) } ip hmem3
  have l4 : lookupA (eraseA (insertA (insertA (insertA s.to_block ip (0 + 1 / 2)) ip (0 + 1 / 2 + 1 / 2)) ip (0 + 1 / 2 + 1 / 2 + 1 / 2)) ip) ip = none :=
    lookupA_eraseA_self _ ip
  have hfs3 : (incStep (incStep (incStep (s, fs) ip d1 mt) ip d2 mt) ip d3 mt).2 = fs := by
    rw [hs3]
  have e5 : increment_failure_count { s with to_block := eraseA (insertA (insertA (insertA s.to_block ip (0 + 1 / 2)) ip (0 + 1 / 2 + 1 / 2)) ip (0 + 1 / 2 + 1 / 2 + 1 / 2)) ip } fs ip d4 mt =
      ({ s with to_block := insertA (eraseA (insertA (insertA (insertA s.to_block ip (0 + 1 / 2)) ip (0 + 1 / 2 + 1 / 2)) ip (0 + 1 / 2 + 1 / 2 + 1 / 2)) ip) ip (0 + 1 / 2) }, fs, false) :=
    increment_adds_half _ fs ip d4 mt 0 hnb (by show (lookupA (eraseA (insertA (insertA (insertA s.to_block ip (0 + 1 / 2)) ip (0 + 1 / 2 + 1 / 2)) ip (0 + 1 / 2 + 1 / 2 + 1 / 2)) ip) ip).getD 0 = 0 ; rw [l4] ; rfl) (by linarith)
  refine ⟨?_, ?_, ?_, ?_, ?_⟩
  · rw [hs1]
    show lookupA (insertA s.to_block ip (0 + 1 / 2)) ip = some (1 / 2)
    rw [l1]
    norm_num
  · rw [hs2]
    show lookupA (insertA (insertA s.to_block ip (0 + 1 / 2)) ip (0 + 1 / 2 + 1 / 2)) ip = some 1
    rw [l2]
    norm_num
  · rw [hs3]
    show lookupA (insertA (insertA (insertA s.to_block ip (0 + 1 / 2)) ip (0 + 1 / 2 + 1 / 2)) ip (0 + 1 / 2 + 1 / 2 + 1 / 2)) ip = some (3 / 2)
    rw [l3]
    norm_num
  · rw [hs4]
    exact l4
  · rw [hs4, hfs3]
    dsimp only [incStep]
    rw [e5]
    show lookupA (insertA (eraseA (insertA (insertA (insertA s.to_block ip (0 + 1 / 2)) ip (0 + 1 / 2 + 1 / 2)) ip (0 + 1 / 2 + 1 / 2 + 1 / 2)) ip) ip (0 + 1 / 2)) ip = some (1 / 2)
    rw [lookupA_insertA_self]
    norm_num

theorem claim_C5_failure_score_chain_witness :
    lookupA (incStep (initState 10, none) "1.2.3.4" 1 7).1.to_block "1.2.3.4"
      = some (1 / 2) ∧
    lookupA (incStep (incStep (initState 10, none) "1.2.3.4" 1 7) "1.2.3.4" 2 7).1.to_block
      "1.2.3.4" = some 1 ∧
    lookupA (incStep (incStep (incStep (initState 10, none) "1.2.3.4" 1 7) "1.2.3.4" 2 7) "1.2.3.4" 3 7).1.to_block "1.2.3.4" = some (3 / 2) ∧
    lookupA (reset_failure_count (incStep (incStep (incStep (initState 10, none) "1.2.3.4" 1 7) "1.2.3.4" 2 7) "1.2.3.4" 3 7).1 "1.2.3.4").to_block "1.2.3.4" = none ∧
    lookupA (incStep (reset_failure_count (incStep (incStep (incStep (initState 10, none) "1.2.3.4" 1 7) "1.2.3.4" 2 7) "1.2.3.4" 3 7).1 "1.2.3.4", (incStep (incStep (incStep (initState 10, none) "1.2.3.4" 1 7) "1.2.3.4" 2 7) "1.2.3.4" 3 7).2) "1.2.3.4" 4 7).1.to_block "1.2.3.4" = some (1 / 2) :=
  claim_C5_failure_score_chain (initState 10) none "1.2.3.4" 1 2 3 4 7
    (by decide) (by decide) (by decide)

/-- Claim C6: deleting the persisted file externally makes the next
external-change check clear the whole in-memory block record; and when
the file carries a strictly newer mtime and has been rewritten to a map
that omits address `A`, the next cleanup tick reloads it and `A` is gone
from the in-memory record. -/
theorem claim_C6_external_reconciliation (s : IPBlockerState)
    (m : AssocMap TimeStr) (A : String) (dnow dnow2 tnow mt mt2 : ℤ)
    (hmt : s.last_file_mtime < mt)
    (hA : lookupA m A = none) :
    (check_external_changes s none dnow).blocked_ips = [] ∧
    lookupA (periodic_cleanup_tick s (some (JsonFile.jdict m, mt))
      dnow2 tnow mt2).1.blocked_ips A = none := by
  constructor
  · simp only [check_external_changes]
    split
    · assumption
    · rfl
  · have h1 : check_external_changes s (some (JsonFile.jdict m, mt)) dnow2 =
        { s with last_file_mtime := mt, blocked_ips := m } := by
      simp [check_external_changes, load_blocked_ips, hmt]
    have h2 : ∀ (st : IPBlockerState) (f2 : FS),
        lookupA st.blocked_ips A = none →
        lookupA (cleanup_expired_blocks st f2 dnow2 mt2).1.blocked_ips A = none := by
      intro st f2 hst
      simp only [cleanup_expired_blocks]
      split
      · exact hst
      · rw [save_blocked_ips_blocked]
        exact lookupA_foldl_eraseA_none _ _ A hst
    have h3 : ∀ st : IPBlockerState,
        (cleanup_old_connections st tnow).blocked_ips = st.blocked_ips :=
      fun st => rfl
    simp only [periodic_cleanup_tick]
    rw [h3, h1]
    exact h2 _ _ hA

theorem claim_C6_external_reconciliation_witness :
    (check_external_changes sBlockedAt0 none 0).blocked_ips = [] ∧
    lookupA (periodic_cleanup_tick sBlockedAt0
      (some (JsonFile.jdict [("5.6.7.8", TimeStr.iso 0)], 5))
      1 1 9).1.blocked_ips "1.2.3.4" = none :=
  claim_C6_external_reconciliation sBlockedAt0 [("5.6.7.8", TimeStr.iso 0)]
    "1.2.3.4" 0 1 1 5 9 (by decide) (by decide)

/-- A state whose two blocked addresses were inserted in non-sorted key
order, as happens when "b" crosses the threshold before "a". -/
def sTwoBlocks : IPBlockerState :=
  { blocked_ips := [("b", TimeStr.iso 0), ("a", TimeStr.iso 0)]
    to_block := []
    connection_attempts := []
    block_threshold := 10
    last_save_state := none
    last_file_mtime := 0 }

/-- Claim C7 counterexample: the claim says the serialized output written
to the file uses sorted key ordering, but `_save_blocked_ips` writes with
`json.dump(self.blocked_ips, f, indent=2)` — no `sort_keys` — so the file
receives the entries in dict insertion order, here ["b", "a"], which
differs from the sorted rendering (only the change-detection string
`json.dumps(..., sort_keys=True)` is sorted). -/
theorem claim_C7_counterexample :
    (save_blocked_ips sTwoBlocks none 5).2 =
      some (JsonFile.jdict [("b", TimeStr.iso 0), ("a", TimeStr.iso 0)], 5) ∧
    dumpsSorted [("b", TimeStr.iso 0), ("a", TimeStr.iso 0)] ≠
      [("b", TimeStr.iso 0), ("a", TimeStr.iso 0)] := by
  decide

/-- Claim C7 (amended): the sorted rendering is used only for change
detection: a save is skipped (state and file untouched) exactly when the
sorted dump of the record equals the last one saved by this process, and
otherwise the file is rewritten with the record in insertion order and
the cache is updated to the sorted dump. -/
theorem claim_C7_save_change_detection (s : IPBlockerState) (fs : FS)
    (mt : ℤ) :
    (s.last_save_state = some (dumpsSorted s.blocked_ips) →
      save_blocked_ips s fs mt = (s, fs)) ∧
    (s.last_save_state ≠ some (dumpsSorted s.blocked_ips) →
      (save_blocked_ips s fs mt).2 =
        some (JsonFile.jdict s.blocked_ips, mt) ∧
      (save_blocked_ips s fs mt).1.last_save_state =
        some (dumpsSorted s.blocked_ips)) := by
  constructor
  · intro h
    simp [save_blocked_ips, h]
  · intro h
    simp [save_blocked_ips, h]

/-- A state whose last-save cache matches its current (sorted) record. -/
def sSavedClean : IPBlockerState :=
  { blocked_ips := [("a", TimeStr.iso 0)]
    to_block := []
    connection_attempts := []
    block_threshold := 10
    last_save_state := some [("a", TimeStr.iso 0)]
    last_file_mtime := 3 }

theorem claim_C7_save_change_detection_witness :
    save_blocked_ips sSavedClean none 5 = (sSavedClean, none) ∧
    ((save_blocked_ips sTwoBlocks none 5).2 =
        some (JsonFile.jdict sTwoBlocks.blocked_ips, 5) ∧
      (save_blocked_ips sTwoBlocks none 5).1.last_save_state =
        some (dumpsSorted sTwoBlocks.blocked_ips)) :=
  ⟨(claim_C7_save_change_detection sSavedClean none 5).1 (by decide),
   (claim_C7_save_change_detection sTwoBlocks none 5).2 (by decide)⟩

/-- Claim C8: the loader never propagates a failure.  Content on which
parsing or processing raises is caught and leaves an empty block record,
and a missing file at startup leaves the freshly initialized empty
record in place. -/
theorem claim_C8_load_fails_open (s : IPBlockerState) (mt dnow dnow2 : ℤ) :
    (load_blocked_ips s (some (JsonFile.jbad, mt)) dnow).blocked_ips = [] ∧
    (load_blocked_ips (initState BLOCK_THRESHOLD) none dnow2).blocked_ips
      = [] := by
  exact ⟨rfl, rfl⟩

/-- Key inserted by a fold of same-valued inserts is found with that
value; keys already bound to that value stay bound to it. -/
theorem lookupA_foldl_insert {α : Type} (v : α) (l : List String) :
    ∀ (m : AssocMap α) (k : String), (k ∈ l ∨ lookupA m k = some v) →
    lookupA (l.foldl (fun acc ip => insertA acc ip v) m) k = some v := by
  induction l with
  | nil =>
    intro m k h
    rcases h with h | h
    · cases h
    · exact h
  | cons a rest ih =>
    intro m k h
    apply ih (insertA m a v) k
    rcases h with h | h
    · rcases List.mem_cons.mp h with h1 | h1
      · right
        subst h1
        exact lookupA_insertA_self m k v
      · left
        exact h1
    · by_cases hk : k = a
      · right
        subst hk
        exact lookupA_insertA_self m k v
      · right
        rw [lookupA_insertA_ne m a k v hk]
        exact h

/-- Claim C9: initializing against a legacy-format file (a bare JSON array
of addresses) yields a record in which every listed address is bound to
the synthesized, parseable timestamp "now"; saving that record and loading
the resulting file reproduces exactly the same record. -/
theorem claim_C9_legacy_roundtrip (l : List String) (fs : FS)
    (mt mt2 dnow dnow2 : ℤ) :
    (∀ a ∈ l,
      lookupA (ipBlocker_init (some (JsonFile.jlist l, mt)) dnow).blocked_ips a
        = some (TimeStr.iso dnow) ∧
      fromisoformat (TimeStr.iso dnow) = some dnow) ∧
    (load_blocked_ips
      (save_blocked_ips (ipBlocker_init (some (JsonFile.jlist l, mt)) dnow) fs mt2).1
      (save_blocked_ips (ipBlocker_init (some (JsonFile.jlist l, mt)) dnow) fs mt2).2
      dnow2).blocked_ips =
      (ipBlocker_init (some (JsonFile.jlist l, mt)) dnow).blocked_ips := by
  have hinit : ipBlocker_init (some (JsonFile.jlist l, mt)) dnow =
      { initState BLOCK_THRESHOLD with last_file_mtime := mt, blocked_ips := l.foldl (fun acc ip => insertA acc ip (TimeStr.iso dnow)) [] } := by
    rfl
  constructor
  · intro a ha
    refine ⟨?_, rfl⟩
    rw [hinit]
    exact lookupA_foldl_insert (TimeStr.iso dnow) l [] a (Or.inl ha)
  · have hcache : (ipBlocker_init (some (JsonFile.jlist l, mt)) dnow).last_save_state = none := rfl
    have hne : (ipBlocker_init (some (JsonFile.jlist l, mt)) dnow).last_save_state ≠
        some (dumpsSorted (ipBlocker_init (some (JsonFile.jlist l, mt)) dnow).blocked_ips) := by
      rw [hcache]
      intro h
      cases h
    unfold save_blocked_ips
    rw [if_neg hne]
    rfl

theorem claim_C9_legacy_roundtrip_witness :
    (∀ a ∈ ["1.2.3.4"],
      lookupA (ipBlocker_init (some (JsonFile.jlist ["1.2.3.4"], 3)) 0).blocked_ips a
        = some (TimeStr.iso 0) ∧
      fromisoformat (TimeStr.iso 0) = some 0) ∧
    (load_blocked_ips
      (save_blocked_ips (ipBlocker_init (some (JsonFile.jlist ["1.2.3.4"], 3)) 0) none 7).1
      (save_blocked_ips (ipBlocker_init (some (JsonFile.jlist ["1.2.3.4"], 3)) 0) none 7).2
      9).blocked_ips =
      (ipBlocker_init (some (JsonFile.jlist ["1.2.3.4"], 3)) 0).blocked_ips :=
  claim_C9_legacy_roundtrip ["1.2.3.4"] none 3 7 0 9

/-- The invariant of claim C10: every address present in the block record
has no pending failure score. -/
def BlockedScoreInv (s : IPBlockerState) : Prop :=
  ∀ p ∈ s.blocked_ips, lookupA s.to_block p.1 = none

/-- A state with a pending failure score for 1.2.3.4 and nothing blocked. -/
def sPendingScore : IPBlockerState :=
  { blocked_ips := []
    to_block := [("1.2.3.4", 1 / 2)]
    connection_attempts := []
    block_threshold := 10
    last_save_state := none
    last_file_mtime := 0 }

/-- Claim C10 counterexample: the external-change reload path does not
preserve the invariant.  With a pending failure score for 1.2.3.4 in
memory and an externally rewritten file (newer mtime) that blocks
1.2.3.4, `_check_external_changes` reloads `blocked_ips` without touching
`to_block`, leaving 1.2.3.4 both blocked and carrying a score. -/
theorem claim_C10_counterexample :
    BlockedScoreInv sPendingScore ∧
    ¬ BlockedScoreInv (check_external_changes sPendingScore
      (some (JsonFile.jdict [("1.2.3.4", TimeStr.iso 0)], 5)) 0) := by
  constructor
  · intro p hp
    cases hp
  · intro h
    have h2 := h ("1.2.3.4", TimeStr.iso 0) (by
      show ("1.2.3.4", TimeStr.iso 0) ∈
        (check_external_changes sPendingScore
          (some (JsonFile.jdict [("1.2.3.4", TimeStr.iso 0)], 5)) 0).blocked_ips
      decide)
    revert h2
    decide

theorem inv_insert_erase (b : AssocMap TimeStr) (tb : AssocMap ℚ)
    (ip : String) (v : TimeStr)
    (h : ∀ p ∈ b, lookupA tb p.1 = none) :
    ∀ p ∈ insertA b ip v, lookupA (eraseA tb ip) p.1 = none := by
  intro p hp
  rcases mem_insertA hp with h1 | h1
  · rw [h1]
    exact lookupA_eraseA_self tb ip
  · exact lookupA_eraseA_none tb ip p.1 (h p h1)

theorem inv_insert_erase_insert (b : AssocMap TimeStr) (tb : AssocMap ℚ)
    (ip : String) (v : TimeStr) (q : ℚ)
    (h : ∀ p ∈ b, lookupA tb p.1 = none) :
    ∀ p ∈ insertA b ip v, lookupA (eraseA (insertA tb ip q) ip) p.1 = none := by
  intro p hp
  rcases mem_insertA hp with h1 | h1
  · rw [h1]
    exact lookupA_eraseA_self _ ip
  · by_cases hk : p.1 = ip
    · rw [hk]
      exact lookupA_eraseA_self _ ip
    · rw [lookupA_eraseA_ne _ ip p.1 hk, lookupA_insertA_ne tb ip p.1 q hk]
      exact h p h1

theorem inv_erase_erase (b : AssocMap TimeStr) (tb : AssocMap ℚ)
    (ip : String) (h : ∀ p ∈ b, lookupA tb p.1 = none) :
    ∀ p ∈ eraseA b ip, lookupA (eraseA tb ip) p.1 = none := by
  intro p hp
  exact lookupA_eraseA_none tb ip p.1 (h p (mem_of_mem_eraseA hp))

theorem inv_track (s : IPBlockerState) (fs : FS) (ip : String) (t d mt : ℤ)
    (hInv : BlockedScoreInv s) :
    BlockedScoreInv (track_connection_attempt s fs ip t d mt).1 := by
  unfold BlockedScoreInv at hInv ⊢
  unfold track_connection_attempt
  by_cases hb : memA s.blocked_ips ip = true
  · rw [if_pos hb]
    exact hInv
  · rw [if_neg hb]
    dsimp only
    split
    · dsimp only
      rw [save_blocked_ips_blocked, save_blocked_ips_to_block]
      exact inv_insert_erase _ _ ip _ hInv
    · exact hInv

theorem inv_is_ip_blocked (s : IPBlockerState) (fs : FS) (ip : String)
    (dnow mt : ℤ) (hInv : BlockedScoreInv s) :
    BlockedScoreInv (is_ip_blocked s fs ip dnow mt).1 := by
  unfold BlockedScoreInv at hInv ⊢
  unfold is_ip_blocked
  split
  · exact hInv
  · split
    · split
      · dsimp only
        rw [save_blocked_ips_blocked, save_blocked_ips_to_block]
        exact inv_erase_erase _ _ ip hInv
      · exact hInv
    · intro p hp
      exact hInv p (mem_of_mem_eraseA hp)

theorem inv_increment (s : IPBlockerState) (fs : FS) (ip : String)
    (d mt : ℤ) (hInv : BlockedScoreInv s) :
    BlockedScoreInv (increment_failure_count s fs ip d mt).1 := by
  unfold BlockedScoreInv at hInv ⊢
  unfold increment_failure_count
  by_cases hb : memA s.blocked_ips ip = true
  · rw [if_pos hb]
    exact hInv
  · rw [if_neg hb]
    dsimp only
    split
    · dsimp only
      rw [save_blocked_ips_blocked, save_blocked_ips_to_block]
      exact inv_insert_erase_insert _ _ ip _ _ hInv
    · intro p hp
      have hne : p.1 ≠ ip := by
        intro hh
        rw [← hh] at hb
        exact hb (memA_of_mem hp)
      rw [show ({ s with to_block := insertA s.to_block ip ((lookupA s.to_block ip).getD 0 + 1 / 2) } : IPBlockerState).to_block = insertA s.to_block ip ((lookupA s.to_block ip).getD 0 + 1 / 2) from rfl]
      rw [lookupA_insertA_ne s.to_block ip p.1 _ hne]
      exact hInv p hp

theorem inv_reset (s : IPBlockerState) (ip : String)
    (hInv : BlockedScoreInv s) :
    BlockedScoreInv (reset_failure_count s ip) := by
  unfold BlockedScoreInv at hInv ⊢
  unfold reset_failure_count
  split
  · intro p hp
    exact lookupA_eraseA_none s.to_block ip p.1 (hInv p hp)
  · exact hInv

theorem inv_block_ip (s : IPBlockerState) (fs : FS) (ip : String)
    (d mt : ℤ) (hInv : BlockedScoreInv s) :
    BlockedScoreInv (block_ip s fs ip d mt).1 := by
  unfold BlockedScoreInv at hInv ⊢
  unfold block_ip
  rw [save_blocked_ips_blocked, save_blocked_ips_to_block]
  exact inv_insert_erase _ _ ip _ hInv

theorem inv_unblock_ip (s : IPBlockerState) (fs : FS) (ip : String)
    (mt : ℤ) (hInv : BlockedScoreInv s) :
    BlockedScoreInv (unblock_ip s fs ip mt).1 := by
  unfold BlockedScoreInv at hInv ⊢
  unfold unblock_ip
  split
  · dsimp only
    rw [save_blocked_ips_blocked, save_blocked_ips_to_block]
    exact inv_erase_erase _ _ ip hInv
  · exact hInv

theorem inv_cleanup_expired (s : IPBlockerState) (fs : FS) (dnow mt : ℤ)
    (hInv : BlockedScoreInv s) :
    BlockedScoreInv (cleanup_expired_blocks s fs dnow mt).1 := by
  unfold BlockedScoreInv at hInv ⊢
  unfold cleanup_expired_blocks
  dsimp only
  split
  · exact hInv
  · rw [save_blocked_ips_blocked, save_blocked_ips_to_block]
    intro p hp
    exact lookupA_foldl_eraseA_none _ s.to_block p.1 (hInv p (mem_foldl_eraseA hp))

theorem inv_cleanup_old (s : IPBlockerState) (tnow : ℤ)
    (hInv : BlockedScoreInv s) :
    BlockedScoreInv (cleanup_old_connections s tnow) :=
  hInv

theorem inv_check_deleted (s : IPBlockerState) (dnow : ℤ)
    (hInv : BlockedScoreInv s) :
    BlockedScoreInv (check_external_changes s none dnow) := by
  unfold BlockedScoreInv at hInv ⊢
  simp only [check_external_changes]
  split
  · exact hInv
  · intro p hp
    cases hp

theorem inv_save (s : IPBlockerState) (fs : FS) (mt : ℤ)
    (hInv : BlockedScoreInv s) :
    BlockedScoreInv (save_blocked_ips s fs mt).1 := by
  unfold BlockedScoreInv at hInv ⊢
  rw [save_blocked_ips_blocked, save_blocked_ips_to_block]
  exact hInv

/-- Claim C10 (amended): every engine operation except the external-change
reload preserves the invariant that a blocked address carries no failure
score: connection tracking, the blocked check, failure increment and
reset, manual block and unblock, both cleanup passes, the deleted-file
branch of the external check, and the save itself.  The reload branch can
break it (see the counterexample), since `_load_blocked_ips` replaces the
block record without clearing `to_block`. -/
theorem claim_C10_invariant_except_reload (s : IPBlockerState) (fs : FS)
    (ip : String) (t d dnow tnow mt : ℤ)
    (hInv : BlockedScoreInv s) :
    BlockedScoreInv (track_connection_attempt s fs ip t d mt).1 ∧
    BlockedScoreInv (is_ip_blocked s fs ip dnow mt).1 ∧
    BlockedScoreInv (increment_failure_count s fs ip d mt).1 ∧
    BlockedScoreInv (reset_failure_count s ip) ∧
    BlockedScoreInv (block_ip s fs ip d mt).1 ∧
    BlockedScoreInv (unblock_ip s fs ip mt).1 ∧
    BlockedScoreInv (cleanup_expired_blocks s fs dnow mt).1 ∧
    BlockedScoreInv (cleanup_old_connections s tnow) ∧
    BlockedScoreInv (check_external_changes s none dnow) ∧
    BlockedScoreInv (save_blocked_ips s fs mt).1 :=
  ⟨inv_track s fs ip t d mt hInv,
   inv_is_ip_blocked s fs ip dnow mt hInv,
   inv_increment s fs ip d mt hInv,
   inv_reset s ip hInv,
   inv_block_ip s fs ip d mt hInv,
   inv_unblock_ip s fs ip mt hInv,
   inv_cleanup_expired s fs dnow mt hInv,
   inv_cleanup_old s tnow hInv,
   inv_check_deleted s dnow hInv,
   inv_save s fs mt hInv⟩

theorem claim_C10_invariant_except_reload_witness :
    BlockedScoreInv (track_connection_attempt sPendingScore none "1.2.3.4" 0 0 7).1 ∧
    BlockedScoreInv (is_ip_blocked sPendingScore none "1.2.3.4" 0 7).1 ∧
    BlockedScoreInv (increment_failure_count sPendingScore none "1.2.3.4" 0 7).1 ∧
    BlockedScoreInv (reset_failure_count sPendingScore "1.2.3.4") ∧
    BlockedScoreInv (block_ip sPendingScore none "1.2.3.4" 0 7).1 ∧
    BlockedScoreInv (unblock_ip sPendingScore none "1.2.3.4" 7).1 ∧
    BlockedScoreInv (cleanup_expired_blocks sPendingScore none 0 7).1 ∧
    BlockedScoreInv (cleanup_old_connections sPendingScore 0) ∧
    BlockedScoreInv (check_external_changes sPendingScore none 0) ∧
    BlockedScoreInv (save_blocked_ips sPendingScore none 7).1 :=
  claim_C10_invariant_except_reload sPendingScore none "1.2.3.4" 0 0 0 0 7
    (fun _ hp => nomatch hp)

end EvilProxy
